import Mathlib

/-!
Verification of the nomad-pack render-output dispatcher against its
natural-language specification.

The development shallowly embeds the Go source:
* `cli/render.go` (the unnamed part of the sources): `RenderCommand.Run`'s
  output phase, `Render.Output`, `Render.toFile`, `maybeConfirmOverwrite`,
  `formatRenderName`;
* `internal/pkg/helper/filesystem/filesystem.go`: `Exists`, `IsDir`,
  `WriteFile`, `CreatePath`, `CopyDir`.

The filesystem is modelled as a function from paths to a status
(absent / file-with-content / directory); the interactive input stream is a
list of read results (`none` models a failed/interrupted read, which the Go
code surfaces as a cancellation error).  Functions that can block forever on
input (the confirmation loop re-prompts indefinitely) return `Option`: `none`
means the input script was exhausted while the loop was still prompting.
-/

namespace NomadPack

/-! ## Go string primitives used by `formatRenderName` -/

/-- Go `strings.Replace(s, old, new, 1)` on character lists: replace the first
occurrence of `old` (scanning left to right) with `new`. -/
def replaceOnce : List Char → List Char → List Char → List Char
  | [], _, _ => []
  | c :: rest, old, new =>
    if old.isPrefixOf (c :: rest) then new ++ (c :: rest).drop old.length
    else c :: replaceOnce rest old new

/-- Go `strings.Replace(s, old, new, 1)`. -/
def stringsReplace1 (s old new : String) : String :=
  ⟨replaceOnce s.toList old.toList new.toList⟩

/-- Go `strings.TrimRight(s, cutset)`: remove trailing characters that belong
to the cutset (a greedy character-class trim, not a suffix trim). -/
def stringsTrimRight (s cutset : String) : String :=
  ⟨((s.toList.reverse).dropWhile (fun c => cutset.toList.contains c)).reverse⟩

/-- `formatRenderName` from `render.go`: trims the low-value elements from the
rendered template name. -/
def formatRenderName (name : String) : String :=
  stringsTrimRight (stringsReplace1 name "/templates/" "/") ".tpl"

/-- Modelled from the spec's wording of the NameFormatter trim rule: the
character class `{'.', 't', 'p', 'l'}`. -/
def tplClass (c : Char) : Bool :=
  c == '.' || (c == 't' || (c == 'p' || c == 'l'))

/-- Modelled from the spec's wording: "strip trailing characters belonging to
the set from the right end of the string", written as structural recursion
from the right rather than via reverse/dropWhile. -/
def specStripTrailing (inClass : Char → Bool) : List Char → List Char
  | [] => []
  | c :: rest =>
    let r := specStripTrailing inClass rest
    if r.isEmpty then (if inClass c then [] else [c]) else c :: r

/-- The NameFormatter contract as the spec words it: replace the first
occurrence of `"/templates/"` with `"/"`, then greedily strip trailing
characters from the class `{'.', 't', 'p', 'l'}`. -/
def specFormatName (name : String) : String :=
  ⟨specStripTrailing tplClass
    (replaceOnce name.toList "/templates/".toList "/".toList)⟩

lemma dropWhile_congr_pred (p q : α → Bool) (h : ∀ a, p a = q a) :
    ∀ l : List α, l.dropWhile p = l.dropWhile q := by
  intro l
  induction l with
  | nil => rfl
  | cons a l ih =>
    simp only [List.dropWhile_cons, h a, ih]

lemma specStripTrailing_eq_dropWhile (p : Char → Bool) (l : List Char) :
    specStripTrailing p l = ((l.reverse).dropWhile p).reverse := by
  induction l with
  | nil => rfl
  | cons c rest ih =>
    simp only [specStripTrailing, ih, List.reverse_cons, List.dropWhile_append]
    by_cases h : (rest.reverse.dropWhile p).isEmpty
    · rw [List.isEmpty_iff] at h
      rw [h]
      simp only [List.reverse_nil, List.isEmpty_nil, if_true,
        List.dropWhile_cons, List.dropWhile_nil]
      cases hp : p c <;> simp
    · have h' : ¬((rest.reverse.dropWhile p).reverse).isEmpty := by
        simpa using h
      rw [if_neg h', if_neg h]
      simp

lemma tplClass_eq_contains (c : Char) :
    (".tpl".toList.contains c) = tplClass c := by
  show (['.', 't', 'p', 'l'].contains c) = tplClass c
  simp only [List.contains, List.elem, tplClass]
  cases h1 : c == '.' <;> cases h2 : c == 't' <;> cases h3 : c == 'p' <;>
    cases h4 : c == 'l' <;>
      simp_all [Bool.beq_comm]

/-- C5: `formatRenderName` replaces the first occurrence of `"/templates/"`
with `"/"` and then strips trailing characters drawn from the class
`{'.', 't', 'p', 'l'}` (a greedy character-class trim).  In particular
`formatRenderName "mypack/templates/job.nomad.tpl" = "mypack/job.nomad"`, and
the trim is not a literal `".tpl"`-suffix trim: a name ending in `".tall"`
loses more than a suffix. -/
theorem formatRenderName_spec :
    (∀ name, formatRenderName name = specFormatName name) ∧
    formatRenderName "mypack/templates/job.nomad.tpl" = "mypack/job.nomad" ∧
    formatRenderName "p/templates/x.tall" = "p/x.ta" := by
  refine ⟨fun name => ?_, by decide, by decide⟩
  show stringsTrimRight (stringsReplace1 name "/templates/" "/") ".tpl" = _
  unfold specFormatName stringsTrimRight stringsReplace1
  rw [specStripTrailing_eq_dropWhile]
  have h := dropWhile_congr_pred (fun c => ".tpl".toList.contains c) tplClass
    tplClass_eq_contains
  rw [h]
  rfl

/-! ## Go `path` package primitives used by `Render.toFile` -/

/-- One past the index of the last `'/'` in the list (`0` when there is no
slash); this is the split point used by Go `path.Split`. -/
def lastSlashIdx : List Char → Nat
  | [] => 0
  | c :: rest =>
    let r := lastSlashIdx rest
    if r = 0 then (if c = '/' then 1 else 0) else r + 1

/-- Go `path.Split(p)`: splits just after the final slash, returning
`(dir, file)` with `dir` keeping its trailing slash. -/
def pathSplit (p : String) : String × String :=
  let cs := p.toList
  let i := lastSlashIdx cs
  (⟨cs.take i⟩, ⟨cs.drop i⟩)

/-- Go `strings.Split(s, "/")` over character lists. -/
def splitSlash : List Char → List (List Char)
  | [] => [[]]
  | c :: rest =>
    let r := splitSlash rest
    if c = '/' then [] :: r
    else
      match r with
      | [] => [[c]]
      | g :: gs => (c :: g) :: gs

/-- The component processing of Go `path.Clean`: drop empty and `"."`
components; `".."` pops the previous component, except at the root (dropped)
or at the start of a relative path (kept). -/
def cleanComponents (rooted : Bool) (comps : List (List Char)) :
    List (List Char) :=
  (comps.foldl (fun acc c =>
    if c = [] ∨ c = ['.'] then acc
    else if c = ['.', '.'] then
      match acc with
      | [] => if rooted then [] else [['.', '.']]
      | x :: rest => if x = ['.', '.'] then c :: x :: rest else rest
    else c :: acc) []).reverse

/-- Go `path.Clean`. -/
def pathClean (p : String) : String :=
  if p = "" then "." else
  let cs := p.toList
  let rooted := cs.head? == some '/'
  let comps := cleanComponents rooted (splitSlash cs)
  let out := List.intercalate ['/'] comps
  if rooted then (if out.isEmpty then "/" else ⟨'/' :: out⟩)
  else (if out.isEmpty then "." else ⟨out⟩)

/-- Go `path.Join(a, b)`: the elements starting from the first non-empty one
are joined with `"/"` and the result is cleaned. -/
def pathJoin2 (a b : String) : String :=
  if a ≠ "" then pathClean (a ++ "/" ++ b)
  else if b ≠ "" then pathClean b
  else ""

/-! ## Filesystem and error model -/

/-- What `os.Stat` reports at a path: nothing, a regular file (with its
content), or a directory. -/
inductive PathStatus where
  | absent
  | file (content : String)
  | dir
deriving DecidableEq

/-- A filesystem: a status for every path.  (Absolute-path resolution by
`filepath.Abs` is not modelled; paths are compared verbatim.) -/
def Fs : Type := String → PathStatus

/-- Update the status of a single path. -/
def fsUpdate (fs : Fs) (p : String) (st : PathStatus) : Fs :=
  fun q => if q == p then st else fs q

/-- The error causes carried inside an `os.PathError`. -/
inductive ErrCause where
  | errExist
  | isDirectory
deriving DecidableEq

/-- The closed set of error values the embedded code can produce:
`fs.ErrExist` (the bare sentinel returned for a declined overwrite),
`os.PathError` values from `WriteFile`, a cancelled/interrupted input read
(`context.Canceled`), `filesystem.ErrDirExists` from `CreatePath`, and the
`MkdirAll` failure when a file occupies the directory path. -/
inductive GoErr where
  | fsErrExist
  | pathErr (path : String) (cause : ErrCause)
  | cancelled
  | dirExistsErr (path : String)
  | notDirErr (path : String)
deriving DecidableEq

/-- Go `errors.Is(err, os.ErrExist)` over the closed error set: the sentinel
itself matches, a `PathError` unwraps to its cause, and `ErrDirExists`
declares itself equal to `ErrExist` via its `Is` method. -/
def GoErr.isErrExist : GoErr → Bool
  | .fsErrExist => true
  | .pathErr _ .errExist => true
  | .dirExistsErr _ => true
  | _ => false

/-- `filesystem.Exists(path, emptyPathIsValid)`: the empty path answers the
flag; otherwise a path exists when `os.Stat` finds anything there. -/
def fsExists (fs : Fs) (path : String) (emptyPathIsValid : Bool) : Bool :=
  if path == "" then emptyPathIsValid
  else fs path != PathStatus.absent

/-- `filesystem.IsDir(path, emptyPathIsValid)`. -/
def fsIsDir (fs : Fs) (path : String) (emptyPathIsValid : Bool) : Bool :=
  if path == "" then emptyPathIsValid
  else fs path == PathStatus.dir

/-- Observable actions of the render pipeline: a directory creation, a file
write, a render printed to the terminal (`toTerminal`), and an error surfaced
through `ui.ErrorWithContext` in the dispatch loop. -/
inductive Effect where
  | createPath (p : String)
  | writeFile (p content : String)
  | terminal (name content : String)
  | errorReport
deriving DecidableEq

def Effect.isTerminal : Effect → Bool
  | .terminal _ _ => true
  | _ => false

/-- `filesystem.WriteFile(destination, content, overwrite)`: stat the
destination; an existing object with `overwrite` unset yields a `PathError`
wrapping `fs.ErrExist`; an existing directory yields a `PathError` saying the
destination is a directory; otherwise `os.WriteFile` writes the content with
mode 0644.  Returns the error, the resulting filesystem, and the mutation
effects. -/
def WriteFile (fs : Fs) (destination content : String) (overwrite : Bool) :
    Option GoErr × Fs × List Effect :=
  let info := fs destination
  if (info != PathStatus.absent) && !overwrite then
    (some (GoErr.pathErr destination ErrCause.errExist), fs, [])
  else if info == PathStatus.dir then
    (some (GoErr.pathErr destination ErrCause.isDirectory), fs, [])
  else
    (none, fsUpdate fs destination (PathStatus.file content),
      [Effect.writeFile destination content])

/-- `filesystem.CreatePath(path, errIfExists)`: an existing directory with
`errIfExists` set yields `ErrDirExists`; otherwise `os.MkdirAll(path, 0755)`
is a no-op on an existing directory, fails when a file occupies the path, and
creates the directory otherwise (creation of missing ancestors is not
tracked). -/
def CreatePath (fs : Fs) (path : String) (errIfExists : Bool) :
    Option GoErr × Fs × List Effect :=
  let info := fs path
  if (info == PathStatus.dir) && errIfExists then
    (some (GoErr.dirExistsErr path), fs, [])
  else
    match info with
    | PathStatus.dir => (none, fs, [])
    | PathStatus.file _ => (some (GoErr.notDirErr path), fs, [])
    | PathStatus.absent =>
      (none, fsUpdate fs path PathStatus.dir, [Effect.createPath path])

/-! ## The confirmation gate (`maybeConfirmOverwrite`) -/

/-- Go `strings.ToLower`, character by character. -/
def stringsToLower (s : String) : String :=
  ⟨s.toList.map Char.toLower⟩

/-- The blocking prompt loop of `maybeConfirmOverwrite`.  Each element of the
input script is one `ui.Input` read: `none` is a failed/interrupted read
(surfaced as a cancellation error), `some line` a read line.  Invalid input
re-prompts; an exhausted script while still prompting is `none` (the loop
would block forever).  Returns `((overwrite, err), autoApproved, rest)`. -/
def confirmLoop (autoApproved : Bool) :
    List (Option String) →
      Option ((Bool × Option GoErr) × Bool × List (Option String))
  | [] => none
  | none :: rest => some ((false, some GoErr.cancelled), autoApproved, rest)
  | some line :: rest =>
    let overwrite := stringsToLower line
    if overwrite == "y" || overwrite == "n" || overwrite == "a" then
      some ((overwrite == "y", none),
        (if overwrite == "a" then true else autoApproved), rest)
    else
      confirmLoop autoApproved rest

/-- `maybeConfirmOverwrite(path, c)` from `render.go`: auto-approved sessions
and absent destinations are approved without prompting; a non-interactive ui
declines; otherwise the prompt loop runs. -/
def maybeConfirmOverwrite (fs : Fs) (path : String)
    (autoApproved interactive : Bool) (inputs : List (Option String)) :
    Option ((Bool × Option GoErr) × Bool × List (Option String)) :=
  if autoApproved then some ((true, none), autoApproved, inputs)
  else if !(fsExists fs path false) then some ((true, none), autoApproved, inputs)
  else if !interactive then some ((false, none), autoApproved, inputs)
  else confirmLoop autoApproved inputs

/-- A filesystem with a single existing file, the destination being
confirmed. -/
def fsOneFile : Fs :=
  fun p => if p == "/out/j" then PathStatus.file "old" else PathStatus.absent

/-- C1 counterexample: with the destination existing, an interactive session
and input line `a`, `maybeConfirmOverwrite` sets the auto-approve flag but
returns `(false, nil)` — it does NOT return `(true, nil)` as the claim
states, so the file currently being confirmed is declined, not approved. -/
theorem confirm_input_a_declines_current_file :
    maybeConfirmOverwrite fsOneFile "/out/j" false true [some "a"] =
      some ((false, none), true, []) ∧
    ¬ maybeConfirmOverwrite fsOneFile "/out/j" false true [some "a"] =
      some ((true, none), true, []) := by
  constructor
  · decide
  · decide

/-- C1 (amended): when the user's input line is `a` (case-insensitive), the
gate sets the session's auto-approve flag to true but returns `(false, nil)`,
declining the file currently being confirmed; only subsequent confirmations
are auto-approved. -/
theorem confirm_input_a_sets_auto_and_declines (fs : Fs) (path line : String)
    (rest : List (Option String)) (hex : fsExists fs path false = true)
    (hline : stringsToLower line = "a") :
    maybeConfirmOverwrite fs path false true (some line :: rest) =
      some ((false, none), true, rest) := by
  simp [maybeConfirmOverwrite, confirmLoop, hex, hline]

/-- C1 witness: the amended statement at a concrete filesystem with input
`"A"` (exercising case-insensitivity). -/
theorem confirm_input_a_sets_auto_and_declines_witness :
    maybeConfirmOverwrite fsOneFile "/out/j" false true [some "A"] =
      some ((false, none), true, []) :=
  confirm_input_a_sets_auto_and_declines fsOneFile "/out/j" "A" []
    (by decide) (by decide)

/-! ## `Render.toFile`, `Render.Output` and the dispatch loop -/

/-- A rendered template: a (formatted) name and its content. -/
structure Render where
  Name : String
  Content : String
deriving DecidableEq

/-- The outcome of one `Render.Output`/`Render.toFile` step: the returned
error, the session's auto-approve flag, the filesystem, the remaining input
script, and the observable effects in order. -/
structure StepResult where
  err : Option GoErr
  autoApproved : Bool
  fs : Fs
  inputs : List (Option String)
  effects : List Effect

/-- `Render.toFile` from `render.go`: split the name, join with the output
directory, create the directory (the returned error is discarded, as in the
source), confirm the overwrite, and write.  A declined overwrite returns
`fs.ErrExist`; a failed input read returns the cancellation error.  `none`
means the confirmation loop would block forever on the given script. -/
def Render.toFile (r : Render) (renderToDir : String)
    (autoApproved interactive : Bool) (fs : Fs)
    (inputs : List (Option String)) : Option StepResult :=
  let sp := pathSplit r.Name
  let outDir := pathJoin2 renderToDir sp.1
  let cp := CreatePath fs outDir false
  let fs1 := cp.2.1
  let effs1 := cp.2.2
  let outFile := pathJoin2 outDir sp.2
  match maybeConfirmOverwrite fs1 outFile autoApproved interactive inputs with
  | none => none
  | some ((overwrite, err), auto1, inputs1) =>
    match err with
    | some e => some ⟨some e, auto1, fs1, inputs1, effs1⟩
    | none =>
      if !overwrite then
        some ⟨some GoErr.fsErrExist, auto1, fs1, inputs1, effs1⟩
      else
        let wf := WriteFile fs1 outFile r.Content (auto1 || overwrite)
        some ⟨wf.1, auto1, wf.2.1, inputs1, effs1 ++ wf.2.2⟩

/-- `Render.Output` from `render.go`: when a destination directory is set,
write the file first; an error satisfying `errors.Is(err, os.ErrExist)` is
returned at once (suppressing the terminal output), while any other error is
dropped; otherwise `toTerminal` runs and `nil` is returned. -/
def Render.Output (r : Render) (renderToDir : String)
    (autoApproved interactive : Bool) (fs : Fs)
    (inputs : List (Option String)) : Option StepResult :=
  if renderToDir != "" then
    match r.toFile renderToDir autoApproved interactive fs inputs with
    | none => none
    | some s =>
      match s.err with
      | some e =>
        if e.isErrExist then some s
        else some { s with
          err := none
          effects := s.effects ++ [Effect.terminal r.Name r.Content] }
      | none => some { s with
          err := none
          effects := s.effects ++ [Effect.terminal r.Name r.Content] }
  else
    some ⟨none, autoApproved, fs, inputs, [Effect.terminal r.Name r.Content]⟩

/-- The `ui.ErrorWithContext` call in the dispatch loop: an error report is
emitted exactly when `Render.Output` returned a non-nil error. -/
def reportEffs : Option GoErr → List Effect
  | some _ => [Effect.errorReport]
  | none => []

/-- The output loop at the end of `RenderCommand.Run`: each render is output
in turn; a returned error is reported via `ui.ErrorWithContext` and the loop
continues with the next render.  Returns the final auto-approve flag,
filesystem, remaining input script, and the concatenated effects. -/
def dispatch (renderToDir : String) (interactive : Bool) :
    List Render → Bool → Fs → List (Option String) →
      Option (Bool × Fs × List (Option String) × List Effect)
  | [], auto, fs, inputs => some (auto, fs, inputs, [])
  | r :: rest, auto, fs, inputs =>
    match r.Output renderToDir auto interactive fs inputs with
    | none => none
    | some s =>
      match dispatch renderToDir interactive rest s.autoApproved s.fs s.inputs with
      | none => none
      | some (auto2, fs2, inputs2, effs2) =>
        some (auto2, fs2, inputs2, (s.effects ++ reportEffs s.err) ++ effs2)

/-- C9: when the destination directory is unset (empty `renderToDir`), the
dispatch loop performs no filesystem mutation at all — the filesystem comes
back unchanged and the effect trace consists exactly of one terminal output
per render, in batch order. -/
theorem dispatch_toDir_empty_pure (renders : List Render) (auto inter : Bool)
    (fs : Fs) (inputs : List (Option String)) :
    dispatch "" inter renders auto fs inputs =
      some (auto, fs, inputs,
        renders.map (fun r => Effect.terminal r.Name r.Content)) := by
  induction renders with
  | nil => rfl
  | cons r rest ih =>
    simp [dispatch, Render.Output, ih, reportEffs]

lemma confirm_auto_true (fs : Fs) (path : String) (inter : Bool)
    (inputs : List (Option String)) :
    maybeConfirmOverwrite fs path true inter inputs =
      some ((true, none), true, inputs) := by
  simp [maybeConfirmOverwrite]

lemma toFile_auto_true {r : Render} {toDir : String} {inter : Bool} {fs : Fs}
    {inputs : List (Option String)} {s : StepResult}
    (h : Render.toFile r toDir true inter fs inputs = some s) :
    s.autoApproved = true := by
  simp only [Render.toFile, confirm_auto_true, Bool.not_true,
    Bool.false_eq_true, if_false] at h
  injection h with h
  rw [← h]

lemma output_auto_true {r : Render} {toDir : String} {inter : Bool} {fs : Fs}
    {inputs : List (Option String)} {s : StepResult}
    (h : Render.Output r toDir true inter fs inputs = some s) :
    s.autoApproved = true := by
  unfold Render.Output at h
  split at h
  · split at h
    · exact Option.noConfusion h
    · rename_i s0 hs0
      have ha := toFile_auto_true hs0
      split at h
      · split at h
        · injection h with h; rw [← h]; exact ha
        · injection h with h; rw [← h]; exact ha
      · injection h with h; rw [← h]; exact ha
  · injection h with h; rw [← h]

lemma dispatch_auto_true {toDir : String} {inter : Bool}
    {renders : List Render} {fs : Fs} {inputs : List (Option String)}
    {res : Bool × Fs × List (Option String) × List Effect}
    (h : dispatch toDir inter renders true fs inputs = some res) :
    res.1 = true := by
  induction renders generalizing fs inputs res with
  | nil => injection h with h; rw [← h]
  | cons r rest ih =>
    unfold dispatch at h
    split at h
    · exact Option.noConfusion h
    · rename_i s hs
      have ha := output_auto_true hs
      rw [ha] at h
      split at h
      · exact Option.noConfusion h
      · rename_i t auto2 fs2 inputs2 effs2 ht
        injection h with h
        rw [← h]
        have h2 := ih ht
        exact h2

/-- C7: the session auto-approve flag is monotone and short-circuits the
gate.  (i) Once it is true, `maybeConfirmOverwrite` returns `(true, nil)`
immediately for every filesystem, interactivity setting and input script —
the destination is not checked and no input is consumed (the script comes
back untouched).  (ii) Across a whole dispatched batch the flag never resets:
a dispatch entered with the flag true finishes with it true. -/
theorem autoApprove_monotone_immediate :
    (∀ (fs : Fs) (path : String) (inter : Bool)
        (inputs : List (Option String)),
        maybeConfirmOverwrite fs path true inter inputs =
          some ((true, none), true, inputs)) ∧
    (∀ (toDir : String) (inter : Bool) (renders : List Render) (fs : Fs)
        (inputs : List (Option String))
        (res : Bool × Fs × List (Option String) × List Effect),
        dispatch toDir inter renders true fs inputs = some res →
        res.1 = true) :=
  ⟨confirm_auto_true, fun _ _ _ _ _ _ h => dispatch_auto_true h⟩

/-- The empty filesystem. -/
def fsEmpty : Fs := fun _ => PathStatus.absent

/-- C7 witness: both conjuncts applied at concrete inputs. -/
theorem autoApprove_monotone_immediate_witness :
    maybeConfirmOverwrite fsEmpty "/x" true false [] =
      some ((true, none), true, []) ∧
    (true, fsEmpty, ([] : List (Option String)),
      ([Effect.terminal "n" "c"] : List Effect)).1 = true :=
  ⟨autoApprove_monotone_immediate.1 fsEmpty "/x" false [],
    autoApprove_monotone_immediate.2 "" false [⟨"n", "c"⟩] fsEmpty []
      (true, fsEmpty, [], [Effect.terminal "n" "c"]) rfl⟩

lemma createPath_effects_file_only (fs : Fs) (p : String) (b : Bool) :
    ((CreatePath fs p b).2.2).all (fun e => !e.isTerminal) = true := by
  simp only [CreatePath]
  split
  · rfl
  · split <;> rfl

lemma writeFile_effects_file_only (fs : Fs) (dest content : String)
    (overwrite : Bool) :
    ((WriteFile fs dest content overwrite).2.2).all
      (fun e => !e.isTerminal) = true := by
  simp only [WriteFile]
  split
  · rfl
  · split <;> rfl

lemma toFile_effects_no_terminal {r : Render} {toDir : String}
    {auto inter : Bool} {fs : Fs} {inputs : List (Option String)}
    {s : StepResult}
    (h : Render.toFile r toDir auto inter fs inputs = some s) :
    s.effects.all (fun e => !e.isTerminal) = true := by
  simp only [Render.toFile] at h
  split at h
  · exact Option.noConfusion h
  · rename_i tup
    split at h
    · injection h with h
      rw [← h]
      exact createPath_effects_file_only fs _ false
    · split at h
      · injection h with h
        rw [← h]
        exact createPath_effects_file_only fs _ false
      · injection h with h
        rw [← h]
        simp only [List.all_append, createPath_effects_file_only,
          writeFile_effects_file_only, Bool.and_self]

/-- C3 (amended): for a render dispatched with a destination directory set,
terminal output occurs exactly when the file-write step did not end in an
already-exists error: a declined overwrite (or any `errors.Is(·, ErrExist)`
error) suppresses the terminal output for that render, while every other
outcome — success, cancellation, or any other write error — is followed by
the terminal output, which comes strictly after all file effects of the same
render. -/
theorem output_terminal_iff_not_errExist (r : Render) (toDir : String)
    (auto inter : Bool) (fs : Fs) (inputs : List (Option String))
    (s : StepResult) (hdir : toDir ≠ "")
    (h : Render.Output r toDir auto inter fs inputs = some s) :
    (s.err = none →
      ∃ pre, s.effects = pre ++ [Effect.terminal r.Name r.Content] ∧
        pre.all (fun e => !e.isTerminal) = true) ∧
    (∀ e, s.err = some e → e.isErrExist = true ∧
      s.effects.all (fun e2 => !e2.isTerminal) = true) := by
  have hdir' : (toDir != "") = true := by simp [hdir]
  unfold Render.Output at h
  rw [hdir'] at h
  simp only [if_true] at h
  split at h
  · exact Option.noConfusion h
  · rename_i s0 hs0
    have hnt := toFile_effects_no_terminal hs0
    split at h
    · rename_i e he
      split at h
      · rename_i hex
        injection h with h
        rw [← h]
        refine ⟨fun hc => absurd (he ▸ hc) (by simp), fun e2 he2 => ?_⟩
        rw [he] at he2
        injection he2 with he2
        exact ⟨he2 ▸ hex, hnt⟩
      · injection h with h
        rw [← h]
        exact ⟨fun _ => ⟨s0.effects, rfl, hnt⟩, fun e2 he2 =>
          Option.noConfusion he2⟩
    · injection h with h
      rw [← h]
      exact ⟨fun _ => ⟨s0.effects, rfl, hnt⟩, fun e2 he2 =>
        Option.noConfusion he2⟩

/-- A filesystem where the output directory and the destination file already
exist: the scenario of a declined overwrite. -/
def fsDeclined : Fs := fun p =>
  if p == "/out/job.nomad" then PathStatus.file "old"
  else if p == "/out" then PathStatus.dir else PathStatus.absent

/-- C3 counterexample: with `toDir = "/out"`, a non-interactive session and
the destination `/out/job.nomad` already existing, `Render.Output` returns
the already-exists error and its effect trace is EMPTY — in particular no
terminal output happened, refuting "toTerminal is always invoked regardless
of the outcome of the file write". -/
theorem output_declined_overwrite_suppresses_terminal :
    (Render.Output ⟨"job.nomad", "new"⟩ "/out" false false fsDeclined []).map
        (fun s => (s.err, s.effects)) =
      some (some GoErr.fsErrExist, ([] : List Effect)) := by
  rfl

/-- C3 witness for the amended theorem: applied at the declined-overwrite
scenario, the suppression conjunct yields that the returned error matches
`ErrExist` and the (empty) effect trace contains no terminal output. -/
theorem output_terminal_iff_not_errExist_witness :
    GoErr.isErrExist GoErr.fsErrExist = true ∧
    List.all ([] : List Effect) (fun e2 => !e2.isTerminal) = true :=
  (output_terminal_iff_not_errExist ⟨"job.nomad", "new"⟩ "/out" false false
    fsDeclined [] ⟨some GoErr.fsErrExist, false, fsDeclined, [], []⟩
    (by decide) rfl).2 GoErr.fsErrExist rfl

/-- Two renders whose destinations both already exist under `/out`. -/
def fsTwoFiles : Fs := fun p =>
  if p == "/out/a.nomad" then PathStatus.file "oldA"
  else if p == "/out/b.nomad" then PathStatus.file "oldB"
  else if p == "/out" then PathStatus.dir else PathStatus.absent

/-- C2: evaluating the dispatch loop at a batch whose first confirmation
read fails (a cancellation).  The cancellation error is swallowed inside
`Render.Output` (only already-exists errors are returned), the cancelled
render is still printed to the terminal, no error is reported, and the
dispatch CONTINUES with the second render — writing its file and printing it
— instead of aborting the batch as the claim (and `toFile`'s own comment
about `context.Canceled`) requires. -/
theorem dispatch_continues_after_cancellation :
    (dispatch "/out" true
        [⟨"a.nomad", "A"⟩, ⟨"b.nomad", "B"⟩] false fsTwoFiles
        [none, some "y"]).map (fun t => t.2.2.2) =
      some [Effect.terminal "a.nomad" "A",
        Effect.writeFile "/out/b.nomad" "B",
        Effect.terminal "b.nomad" "B"] := by
  rfl

/-! ## The setup check of `RenderCommand.Run` (C4) -/

/-- The "fast failure" setup check before rendering in `RenderCommand.Run`:
`filesystem.Exists(c.packConfig.Path, true) &&
!filesystem.IsDir(c.packConfig.Path, true)`.  Note that the source inspects
`packConfig.Path`, not `renderToDir`, even though its comment and error
message speak about the output (to-dir) path. -/
def runOutputPathCheck (fs : Fs) (packPath : String) : Bool :=
  fsExists fs packPath true && !(fsIsDir fs packPath true)

/-- A state where the pack path `/pack` is a directory but the render
destination `/out` is an existing regular file. -/
def fsBadToDir : Fs := fun p =>
  if p == "/out" then PathStatus.file "occupied"
  else if p == "/pack" then PathStatus.dir else PathStatus.absent

/-- C4: the setup check never looks at the render output destination.  With
the to-dir `/out` existing as a regular file (and the pack path a proper
directory), the check evaluates to `false`, so the command does NOT fail
during setup — rendering and dispatch proceed — although the claim (and the
source's own comment about "aiming to-dir at a file") requires an exit with
code 1 before any rendering.  The check's inputs do not even include the
to-dir value. -/
theorem setup_check_ignores_render_to_dir :
    runOutputPathCheck fsBadToDir "/pack" = false ∧
    fsExists fsBadToDir "/out" true = true ∧
    fsIsDir fsBadToDir "/out" true = false := by
  refine ⟨?_, ?_, ?_⟩ <;> rfl

/-! ## Batch assembly order in `RenderCommand.Run` (C6) -/

/-- The batch-assembly phase of `RenderCommand.Run`: iterate the dependent
renders (in the iteration order of the underlying Go map, taken here as an
input), appending each to `renders`; then the parent renders likewise; then,
when the output template was requested and rendered without error, append it
last under the fixed name `outputs.tpl`.  No sorting is performed anywhere. -/
def assembleRenders (dependentRenders parentRenders : List (String × String))
    (renderOutputTemplate : Bool) (outputRender : Option String) :
    List Render :=
  let renders : List Render := []
  let renders := dependentRenders.foldl
    (fun acc p => acc ++ [⟨formatRenderName p.1, p.2⟩]) renders
  let renders := parentRenders.foldl
    (fun acc p => acc ++ [⟨formatRenderName p.1, p.2⟩]) renders
  if renderOutputTemplate then
    match outputRender with
    | some content => renders ++ [⟨"outputs.tpl", content⟩]
    | none => renders
  else renders

/-- Lexicographic order on strings, character by character. -/
def charListLe : List Char → List Char → Bool
  | [], _ => true
  | _ :: _, [] => false
  | a :: as, b :: bs =>
    if a < b then true else if a = b then charListLe as bs else false

/-- `a` is lexicographically at most `b`. -/
def strLe (a b : String) : Bool := charListLe a.toList b.toList

/-- C6 counterexample: when the dependent-render map happens to be iterated
in the order `b` before `a` — Go map iteration order is unspecified, so this
order can occur — the assembled batch is NOT sorted lexicographically by
name, refuting the claimed within-group sort. -/
theorem assemble_order_not_sorted :
    ((assembleRenders
        [("p/templates/b.tpl", "B"), ("p/templates/a.tpl", "A")] [] false
        none).map Render.Name) = ["p/b", "p/a"] ∧
    ¬ List.Sorted (fun a b => strLe a b = true) ["p/b", "p/a"] := by
  constructor
  · rfl
  · decide

lemma foldl_append_renders (items : List (String × String))
    (init : List Render) :
    items.foldl (fun acc p => acc ++ [⟨formatRenderName p.1, p.2⟩]) init =
      init ++ items.map (fun p => ⟨formatRenderName p.1, p.2⟩) := by
  induction items generalizing init with
  | nil => simp
  | cons p rest ih => simp [ih]

/-- C6 (amended): the batch order is all dependent renders first, then all
parent renders, then — when the output template was requested and rendered —
the output-template render last; but WITHIN the dependent and parent groups
the order is the iteration order of the underlying unordered mapping, not a
lexicographic sort. -/
theorem assemble_order_groups (dep par : List (String × String))
    (flag : Bool) (out : Option String) :
    assembleRenders dep par flag out =
      dep.map (fun p => ⟨formatRenderName p.1, p.2⟩) ++
      par.map (fun p => ⟨formatRenderName p.1, p.2⟩) ++
      (if flag then
        (match out with
          | some content => [⟨"outputs.tpl", content⟩]
          | none => [])
        else []) := by
  simp only [assembleRenders, foldl_append_renders, List.nil_append]
  cases flag with
  | false => simp
  | true => cases out <;> simp

/-! ## `filesystem.WriteFile` at a directory destination (C10) -/

/-- A filesystem with a directory at `/d`. -/
def fsDirAtDest : Fs :=
  fun p => if p == "/d" then PathStatus.dir else PathStatus.absent

/-- C10 counterexample: with the destination an existing directory and
`overwrite = false`, `WriteFile` returns the `PathError` wrapping
`fs.ErrExist` — NOT the "destination is a directory" `PathError` the claim
describes; that error is only produced when `overwrite` is true. -/
theorem writeFile_dir_no_overwrite_errExist :
    WriteFile fsDirAtDest "/d" "c" false =
      (some (GoErr.pathErr "/d" ErrCause.errExist), fsDirAtDest, []) ∧
    ErrCause.errExist ≠ ErrCause.isDirectory := by
  constructor
  · rfl
  · decide

/-- C10 (amended): when the destination is an existing directory, `WriteFile`
returns a `PathError` and leaves the filesystem unchanged for every value of
`overwrite`; the error reports "destination is a directory" when `overwrite`
is true and `fs.ErrExist` when it is false. -/
theorem writeFile_dir_errors_unchanged (fs : Fs) (dest content : String)
    (ow : Bool) (h : fs dest = PathStatus.dir) :
    WriteFile fs dest content ow =
      (some (GoErr.pathErr dest
        (if ow then ErrCause.isDirectory else ErrCause.errExist)), fs, []) := by
  simp only [WriteFile, h]
  cases ow <;> simp

/-- C10 witness: the amended statement applied at `/d` for both values of
`overwrite`. -/
theorem writeFile_dir_errors_unchanged_witness :
    WriteFile fsDirAtDest "/d" "c" true =
      (some (GoErr.pathErr "/d" ErrCause.isDirectory), fsDirAtDest, []) ∧
    WriteFile fsDirAtDest "/d" "c" false =
      (some (GoErr.pathErr "/d" ErrCause.errExist), fsDirAtDest, []) :=
  ⟨writeFile_dir_errors_unchanged fsDirAtDest "/d" "c" true rfl,
    writeFile_dir_errors_unchanged fsDirAtDest "/d" "c" false rfl⟩

/-! ## `filesystem.CopyDir` (C8)

`CopyDir` is modelled on a tree view of a directory: `os.ReadDir` entries
are `(name, node)` pairs, where a node is a regular file (content and
permission mode), a symbolic link (as reported by `DirEntry.Type()`, which
does not follow links), or a subdirectory with its own entries. -/

inductive FSNode where
  | file (content : String) (mode : Nat)
  | symlink (target : String)
  | dir (mode : Nat) (entries : List (String × FSNode))

/-- The entry loop of `CopyDir`: a directory entry recurses (its destination
cannot exist, since the destination directory was just created), a symbolic
link is skipped, and any other entry is copied by `CopyFile`, which
reproduces content and permission bits. -/
def copyEntries : List (String × FSNode) → List (String × FSNode)
  | [] => []
  | (n, FSNode.file c m) :: rest => (n, FSNode.file c m) :: copyEntries rest
  | (_, FSNode.symlink _) :: rest => copyEntries rest
  | (n, FSNode.dir m es) :: rest =>
    (n, FSNode.dir m (copyEntries es)) :: copyEntries rest

/-- `filesystem.CopyDir(src, dst)`: `src` is the result of `os.Stat` on the
source path (`none` when stat fails; symlinks are resolved by stat, so a
`symlink` node here stands for a dangling link and is not a directory), and
`dstExists` tells whether anything exists at the destination path.  On
success the result is the copied tree: same mode, entries copied with
symlinks omitted. -/
def CopyDir (src : Option FSNode) (dstExists : Bool) :
    Except String FSNode :=
  match src with
  | none => Except.error "error getting source directory info"
  | some (FSNode.file _ _) => Except.error "source is not a directory"
  | some (FSNode.symlink _) => Except.error "source is not a directory"
  | some (FSNode.dir m es) =>
    if dstExists then Except.error "destination already exists"
    else Except.ok (FSNode.dir m (copyEntries es))

lemma copyEntries_no_symlink (es : List (String × FSNode)) (n t : String) :
    (n, FSNode.symlink t) ∉ copyEntries es := by
  induction es with
  | nil => simp [copyEntries]
  | cons hd rest ih =>
    obtain ⟨m, node⟩ := hd
    cases node <;> simp [copyEntries, ih]

lemma copyEntries_keeps_file (es : List (String × FSNode)) (n c : String)
    (m : Nat) (h : (n, FSNode.file c m) ∈ es) :
    (n, FSNode.file c m) ∈ copyEntries es := by
  induction es with
  | nil => simp at h
  | cons hd rest ih =>
    obtain ⟨n2, node⟩ := hd
    rcases List.mem_cons.mp h with h1 | h2
    · rw [← h1]
      simp [copyEntries]
    · cases node <;> simp [copyEntries, ih h2]

lemma copyEntries_keeps_dir (es : List (String × FSNode)) (n : String)
    (m : Nat) (sub : List (String × FSNode))
    (h : (n, FSNode.dir m sub) ∈ es) :
    (n, FSNode.dir m (copyEntries sub)) ∈ copyEntries es := by
  induction es with
  | nil => simp at h
  | cons hd rest ih =>
    obtain ⟨n2, node⟩ := hd
    rcases List.mem_cons.mp h with h1 | h2
    · rw [← h1]
      simp [copyEntries]
    · cases node <;> simp [copyEntries, ih h2]

/-- C8: `CopyDir` fails when the source does not exist or is not a
directory; fails when the destination already exists; and on success (source
a directory, destination absent) produces a copy in which every direct
symbolic-link entry of the source is omitted, every regular-file entry is
kept with its content and mode, and every subdirectory entry is kept and
copied recursively by the same rule. -/
theorem copyDir_spec :
    (∀ b, CopyDir none b =
      Except.error "error getting source directory info") ∧
    (∀ c m b, CopyDir (some (FSNode.file c m)) b =
      Except.error "source is not a directory") ∧
    (∀ m es, CopyDir (some (FSNode.dir m es)) true =
      Except.error "destination already exists") ∧
    (∀ m es, CopyDir (some (FSNode.dir m es)) false =
      Except.ok (FSNode.dir m (copyEntries es))) ∧
    (∀ es (n t : String), (n, FSNode.symlink t) ∉ copyEntries es) ∧
    (∀ es (n c : String) (m : Nat), (n, FSNode.file c m) ∈ es →
      (n, FSNode.file c m) ∈ copyEntries es) ∧
    (∀ es (n : String) (m : Nat) sub, (n, FSNode.dir m sub) ∈ es →
      (n, FSNode.dir m (copyEntries sub)) ∈ copyEntries es) :=
  ⟨fun _ => rfl, fun _ _ _ => rfl, fun _ _ => rfl, fun _ _ => rfl,
    copyEntries_no_symlink, copyEntries_keeps_file, copyEntries_keeps_dir⟩

/-- A source directory holding a file, a symlink, and a subdirectory that
itself holds a symlink and a file. -/
def esSample : List (String × FSNode) :=
  [("f", FSNode.file "data" 420), ("s", FSNode.symlink "t"),
    ("d", FSNode.dir 493
      [("s2", FSNode.symlink "u"), ("g", FSNode.file "x" 420)])]

/-- C8 witness: the success case and the membership conjuncts applied at a
concrete directory tree. -/
theorem copyDir_spec_witness :
    CopyDir (some (FSNode.dir 493 esSample)) false =
      Except.ok (FSNode.dir 493 (copyEntries esSample)) ∧
    ("f", FSNode.file "data" 420) ∈ copyEntries esSample ∧
    ("d", FSNode.dir 493
        (copyEntries [("s2", FSNode.symlink "u"),
          ("g", FSNode.file "x" 420)])) ∈ copyEntries esSample ∧
    ("s", FSNode.symlink "t") ∉ copyEntries esSample :=
  ⟨copyDir_spec.2.2.2.1 493 esSample,
    copyDir_spec.2.2.2.2.2.1 esSample "f" "data" 420 (by simp [esSample]),
    copyDir_spec.2.2.2.2.2.2 esSample "d" 493 _ (by simp [esSample]),
    copyDir_spec.2.2.2.2.1 esSample "s" "t"⟩

end NomadPack
